import Mathlib

/-!
Verification development for the Markdown writer of sphinx-markdown-builder
(src/sphinx_markdown_builder/markdown_writer.py).

The Python module is shallowly embedded: every definition below is a direct
translation of a function or method of the source file, with Python objects
replaced by inductive data and in-place mutation replaced by explicit state
passing.  The base class Translator (module doctree2md) and the docutils node
library are not part of src/, so the small slices of them that the claims
need (the output buffer with its `add` appender, the indentation-level stack,
and the `astext` flattening of nodes) are modelled from the spec, and are
marked as such in their doc comments.
-/

namespace SMB

/-- Node kinds (docutils tags) that the embedded handlers distinguish. -/
inductive Tag where
  | table
  | tgroup
  | colspec
  | thead
  | tbody
  | row
  | entry
  | admonition
  | title
  | paragraph
  | image
  | reference
  | other
  deriving DecidableEq, Repr

/-- Modelled from the spec: a docutils document-tree node, either a text leaf
carrying a string or an element with a tag and an ordered list of children. -/
inductive Node where
  | text (s : String)
  | elem (tag : Tag) (children : List Node)
  deriving Repr

mutual

/-- Boolean equality on nodes (structural). -/
def Node.beq : Node → Node → Bool
  | .text s, .text u => s == u
  | .elem t cs, .elem u ds => t == u && Node.beqList cs ds
  | _, _ => false

/-- Boolean equality on lists of nodes (structural). -/
def Node.beqList : List Node → List Node → Bool
  | [], [] => true
  | a :: as, b :: bs => Node.beq a b && Node.beqList as bs
  | _, _ => false

end

mutual

/-- Node.beq decides propositional equality. -/
theorem Node.beq_iff : ∀ a b : Node, Node.beq a b = true ↔ a = b
  | .text s, .text u => by simp [Node.beq]
  | .text s, .elem u ds => by simp [Node.beq]
  | .elem t cs, .text u => by simp [Node.beq]
  | .elem t cs, .elem u ds => by
    simp [Node.beq, Node.beqList_iff cs ds, beq_iff_eq]

/-- Node.beqList decides propositional equality of node lists. -/
theorem Node.beqList_iff : ∀ as bs : List Node, Node.beqList as bs = true ↔ as = bs
  | [], [] => by simp [Node.beqList]
  | [], b :: bs => by simp [Node.beqList]
  | a :: as, [] => by simp [Node.beqList]
  | a :: as, b :: bs => by
    simp [Node.beqList, Node.beq_iff a b, Node.beqList_iff as bs]

end

instance : DecidableEq Node := fun a b => decidable_of_iff _ (Node.beq_iff a b)

instance {ε α : Type} [DecidableEq ε] [DecidableEq α] : DecidableEq (Except ε α) :=
  fun a b =>
    match a, b with
    | .error e, .error f =>
      if h : e = f then .isTrue (by rw [h]) else .isFalse (fun hc => h (Except.error.inj hc))
    | .ok x, .ok y =>
      if h : x = y then .isTrue (by rw [h]) else .isFalse (fun hc => h (Except.ok.inj hc))
    | .error _, .ok _ => .isFalse (fun hc => Except.noConfusion hc)
    | .ok _, .error _ => .isFalse (fun hc => Except.noConfusion hc)

/-- Modelled from the spec: the child-text separator docutils uses when
flattening an element to text; text-level elements (title, paragraph) join
with the empty string, structural elements with a blank line. -/
def Tag.sep : Tag → String
  | .title => ""
  | .paragraph => ""
  | _ => "\n\n"

mutual

/-- Modelled from the spec: docutils astext, the rendered text of a node;
the text of a leaf, or the children joined by the tag separator. -/
def Node.astext : Node → String
  | .text s => s
  | .elem t cs => String.intercalate t.sep (Node.astextList cs)

/-- The rendered texts of a list of nodes, in order. -/
def Node.astextList : List Node → List String
  | [] => []
  | c :: cs => Node.astext c :: Node.astextList cs

end

/-- The children of a node (a text leaf has none). -/
def Node.childrenL : Node → List Node
  | .text _ => []
  | .elem _ cs => cs

/-- Whether a node is a docutils row (isinstance check in the source). -/
def Node.isRow : Node → Bool
  | .elem .row _ => true
  | _ => false

/-! ### Python string primitives used by the source, on lists of characters -/

/-- Python str.startswith on character lists: the second list is a prefix of
the first. -/
def charsStartsWith : List Char → List Char → Bool
  | _, [] => true
  | [], _ :: _ => false
  | a :: as, b :: bs => a == b && charsStartsWith as bs

/-- Python substring containment (the `in` operator on str): some suffix of
the text starts with the pattern. -/
def charsContains : List Char → List Char → Bool
  | [], pat => pat == []
  | a :: as, pat => charsStartsWith (a :: as) pat || charsContains as pat

/-- Worker for Python str.replace with the empty replacement: scan left to
right; while `skip` is positive the scanner is inside a matched occurrence
and drops characters without emitting or rematching; at `skip` zero a
position starting a fresh occurrence of the (non-empty) pattern drops the
first character and arms the skip counter for the rest, any other character
is kept. -/
def charsRemoveAllAux (pat : List Char) : List Char → Nat → List Char
  | [], _ => []
  | _ :: as, skip + 1 => charsRemoveAllAux pat as skip
  | a :: as, 0 =>
    if charsStartsWith (a :: as) pat && !pat.isEmpty then
      charsRemoveAllAux pat as (pat.length - 1)
    else
      a :: charsRemoveAllAux pat as 0

/-- Python str.replace with the empty replacement: delete every
non-overlapping occurrence of the pattern, scanning left to right.  An
empty pattern leaves the text unchanged (replacing the empty string by the
empty string is the identity in Python as well). -/
def charsRemoveAll (s pat : List Char) : List Char :=
  charsRemoveAllAux pat s 0

/-- Worker for Python str.split with a non-empty separator: accumulate the
current piece in reverse; a position starting an occurrence of the
separator closes the piece and arms the skip counter, the end of the text
closes the final piece. -/
def charsSplitOnAux (pat : List Char) : List Char → Nat → List Char → List (List Char)
  | [], _, acc => [acc.reverse]
  | _ :: as, skip + 1, acc => charsSplitOnAux pat as skip acc
  | a :: as, 0, acc =>
    if charsStartsWith (a :: as) pat && !pat.isEmpty then
      acc.reverse :: charsSplitOnAux pat as (pat.length - 1) []
    else
      charsSplitOnAux pat as 0 (a :: acc)

/-- Python str.split(sep) for a non-empty separator sep, on strings. -/
def pySplit (s sep : String) : List String :=
  (charsSplitOnAux sep.data s.data 0 []).map String.mk

/-- Python str.strip with no argument: drop whitespace from both ends. -/
def charsStrip (s : List Char) : List Char :=
  ((s.dropWhile Char.isWhitespace).reverse.dropWhile Char.isWhitespace).reverse

/-- String wrapper for Python substring containment (`pat in s`). -/
def pyContains (s pat : String) : Bool :=
  charsContains s.data pat.data

/-- String wrapper for Python s.replace(pat, ""). -/
def pyRemoveAll (s pat : String) : String :=
  ⟨charsRemoveAll s.data pat.data⟩

/-- String wrapper for Python s.strip(). -/
def pyStrip (s : String) : String :=
  ⟨charsStrip s.data⟩

/-- Python s.startswith(pat) on strings. -/
def pyStartsWith (s pat : String) : Bool :=
  charsStartsWith s.data pat.data

/-- Python s[n:] with a character count. -/
def pyDropChars (s : String) (n : Nat) : String :=
  ⟨s.data.drop n⟩

/-! ### reformat_title (markdown_writer.py lines 53-77) -/

/-- Embedding of reformat_title: if the first child of the node is a text
leaf whose string contains the substring "module", replace that child by a
text leaf holding "Module " prepended to the string with every occurrence of
"module" deleted and the result stripped of surrounding whitespace.  The
source reads node.children[0] unguarded, so a node without children raises
IndexError; that outcome is the error case here. -/
def reformat_title : Node → Except String Node
  | .text s => .ok (.text s)
  | .elem _ [] => .error "IndexError: list index out of range"
  | .elem t (c :: cs) =>
    match c with
    | .text s =>
      if pyContains s "module" then
        .ok (.elem t (.text ("Module " ++ pyStrip (pyRemoveAll s "module")) :: cs))
      else
        .ok (.elem t (.text s :: cs))
    | c => .ok (.elem t (c :: cs))

/-! ### visit_image (markdown_writer.py lines 409-420) -/

/-- Embedding of os.path.dirname on a POSIX path: everything before the last
slash, with trailing slashes stripped unless the head is all slashes. -/
def dirname (s : String) : String :=
  let head := (s.data.reverse.dropWhile (fun c => c != '/')).reverse
  if head.isEmpty then ""
  else if head.all (fun c => c == '/') then ⟨head⟩
  else ⟨(head.reverse.dropWhile (fun c => c == '/')).reverse⟩

/-- The path computation written in the body of visit_image: drop the folder
of the current document from the front of the image URI and make the result
dot-relative.  This code is unreachable in the source because the module
never imports os (see visit_image below); it is embedded separately to state
what the body would compute. -/
def visit_image_uri (uri current_docname : String) : String :=
  let doc_folder := dirname current_docname
  if pyStartsWith uri doc_folder then
    let u := pyDropChars uri doc_folder.length
    if pyStartsWith u "/" then "." ++ u else u
  else uri

/-- The markup string visit_image would pass to add for a given path. -/
def visit_image_markup (uri : String) : String :=
  "\n\n![image](" ++ uri ++ ")\n\n"

/-- Embedding of visit_image: its first statement evaluates
os.path.dirname(self.builder.current_docname), but the module imports only
posixpath, never os, so the name lookup raises NameError before any of the
path logic runs.  Every call therefore errors. -/
def visit_image (_uri _current_docname : String) : Except String String :=
  .error "NameError: name os is not defined"

/-! ### PreMan (markdown_writer.py lines 10-50)

The Python class holds a reference to the translator and calls
self.translator.add to emit text; `add` (base class Translator, modelled from
the spec) appends one fragment to the output buffer.  The embedded state
therefore carries the counter together with the fragment buffer the
emissions land in.  Python integers are unbounded and signed, so the counter
is an Int. -/

/-- State of a PreMan object: the quote-nesting counter together with the
output buffer of the translator it emits into. -/
structure PreMan where
  in_quotes : Int
  out : List String
  deriving DecidableEq, Repr

/-- Embedding of PreMan.push: emit one backtick if the counter is 0, then
increment the counter. -/
def PreMan.push (p : PreMan) : PreMan :=
  let p := if p.in_quotes = 0 then { p with out := p.out ++ ["`"] } else p
  { p with in_quotes := p.in_quotes + 1 }

/-- Embedding of PreMan.pop: decrement the counter, then emit one backtick
if the counter is now 0. -/
def PreMan.pop (p : PreMan) : PreMan :=
  let p := { p with in_quotes := p.in_quotes - 1 }
  if p.in_quotes = 0 then { p with out := p.out ++ ["`"] } else p

/-- Embedding of PreMan.escape: append the text wrapped in backticks when
the counter is non-zero (Python truthiness of the int), verbatim when it is
zero.  The counter itself is not touched. -/
def PreMan.escape (p : PreMan) (text : String) : PreMan :=
  if p.in_quotes = 0 then { p with out := p.out ++ [text] }
  else { p with out := p.out ++ ["`" ++ text ++ "`"] }

/-- A push or pop call on a PreMan object. -/
inductive QOp where
  | push
  | pop
  deriving DecidableEq, Repr

/-- Run a sequence of push/pop calls on a PreMan state. -/
def PreMan.run (p : PreMan) : List QOp → PreMan
  | [] => p
  | .push :: ops => PreMan.run p.push ops
  | .pop :: ops => PreMan.run p.pop ops

/-- Counter value after running a sequence of push/pop calls from counter c
(push adds one, pop subtracts one). -/
def finalCounter (c : Int) : List QOp → Int
  | [] => c
  | .push :: ops => finalCounter (c + 1) ops
  | .pop :: ops => finalCounter (c - 1) ops

/-- Number of opening backticks a run from counter c emits: a push emits
exactly when it sees counter 0 (the 0 to 1 transition). -/
def countOpens (c : Int) : List QOp → Nat
  | [] => 0
  | .push :: ops => (if c = 0 then 1 else 0) + countOpens (c + 1) ops
  | .pop :: ops => countOpens (c - 1) ops

/-- Number of closing backticks a run from counter c emits: a pop emits
exactly when it lands on counter 0 (the 1 to 0 transition). -/
def countCloses (c : Int) : List QOp → Nat
  | [] => 0
  | .push :: ops => countCloses (c + 1) ops
  | .pop :: ops => (if c - 1 = 0 then 1 else 0) + countCloses (c - 1) ops

/-- Sequences of push/pop calls forming matched bracketed pairs: empty, a
matched sequence wrapped in one push/pop pair, or two matched sequences in
succession. -/
inductive Dyck : List QOp → Prop where
  | nil : Dyck []
  | wrap {w : List QOp} : Dyck w → Dyck (QOp.push :: (w ++ [QOp.pop]))
  | append {a b : List QOp} : Dyck a → Dyck b → Dyck (a ++ b)

theorem finalCounter_append (c : Int) (a b : List QOp) :
    finalCounter c (a ++ b) = finalCounter (finalCounter c a) b := by
  induction a generalizing c with
  | nil => rfl
  | cons op ops ih => cases op <;> simp [finalCounter, ih]

theorem countOpens_append (c : Int) (a b : List QOp) :
    countOpens c (a ++ b) = countOpens c a + countOpens (finalCounter c a) b := by
  induction a generalizing c with
  | nil => simp [countOpens, finalCounter]
  | cons op ops ih => cases op <;> simp [countOpens, finalCounter, ih] <;> omega

theorem countCloses_append (c : Int) (a b : List QOp) :
    countCloses c (a ++ b) = countCloses c a + countCloses (finalCounter c a) b := by
  induction a generalizing c with
  | nil => simp [countCloses, finalCounter]
  | cons op ops ih => cases op <;> simp [countCloses, finalCounter, ih] <;> omega

/-- On a matched sequence, the counter returns to its starting value and,
from any starting counter, the opening and closing emissions agree. -/
theorem dyck_counts {w : List QOp} (hw : Dyck w) :
    ∀ c : Int, finalCounter c w = c ∧ countOpens c w = countCloses c w := by
  induction hw with
  | nil => intro c; exact ⟨rfl, rfl⟩
  | wrap hw ih =>
    intro c
    have h1 := (ih (c + 1)).1
    have h2 := (ih (c + 1)).2
    constructor
    · simp [finalCounter, finalCounter_append, h1]
    · simp [countOpens, countCloses, countOpens_append, countCloses_append,
        finalCounter, h1, h2]
      omega
  | append ha hb iha ihb =>
    intro c
    have h1 := (iha c).1
    have h2 := (iha c).2
    have h3 := (ihb c).1
    have h4 := (ihb c).2
    constructor
    · simp [finalCounter_append, h1, h3]
    · simp [countOpens_append, countCloses_append, h1, h2, h3, h4]

/-- A PreMan run realizes the counting functions: the final counter is
finalCounter and the number of appended fragments is the number of opening
plus closing emissions. -/
theorem PreMan.run_spec (ops : List QOp) : ∀ p : PreMan,
    (p.run ops).in_quotes = finalCounter p.in_quotes ops ∧
    (p.run ops).out.length =
      p.out.length + countOpens p.in_quotes ops + countCloses p.in_quotes ops := by
  induction ops with
  | nil => intro p; exact ⟨rfl, by simp [PreMan.run, countOpens, countCloses]⟩
  | cons op ops ih =>
    intro p
    cases op with
    | push =>
      have h := ih p.push
      have hc : p.push.in_quotes = p.in_quotes + 1 := by
        by_cases h0 : p.in_quotes = 0 <;> simp [PreMan.push, h0]
      have ho : p.push.out.length =
          p.out.length + (if p.in_quotes = 0 then 1 else 0) := by
        by_cases h0 : p.in_quotes = 0 <;> simp [PreMan.push, h0]
      refine ⟨?_, ?_⟩
      · simp [PreMan.run, finalCounter, h.1, hc]
      · simp [PreMan.run, countOpens, countCloses, h.2, hc, ho]
        omega
    | pop =>
      have h := ih p.pop
      have hc : p.pop.in_quotes = p.in_quotes - 1 := by
        by_cases h0 : p.in_quotes - 1 = 0 <;> simp [PreMan.pop, h0]
      have ho : p.pop.out.length =
          p.out.length + (if p.in_quotes - 1 = 0 then 1 else 0) := by
        by_cases h0 : p.in_quotes - 1 = 0 <;> simp [PreMan.pop, h0]
      refine ⟨?_, ?_⟩
      · simp [PreMan.run, finalCounter, h.1, hc]
      · simp [PreMan.run, countOpens, countCloses, h.2, hc, ho]
        omega

/-! ### MarkdownTranslator state (markdown_writer.py lines 80-106)

The class body declares row_entries, rows, tables, tbodys and theads as
class attributes, shared by every instance.  `rows` is immediately shadowed
by the property of the same name (lines 94-106), so the class list `rows` is
unreachable; the other four are reached by every attribute lookup until an
assignment `self.attr = ...` creates an instance attribute that shadows the
class one.  In the source only row_entries is ever assigned (depart_thead
and depart_row); tables, tbodys and theads are only mutated in place
(append/pop) and therefore always denote the class-level lists.  The
embedding keeps the class-level lists in ClassState and the per-instance
data (the optional instance attribute shadowing row_entries, plus the
output buffer and indentation stack of the framework base class, modelled
from the spec) in InstState. -/

/-- Class-level attributes of MarkdownTranslator, shared across instances. -/
structure ClassState where
  row_entries : List Node
  tables : List Node
  tbodys : List Node
  theads : List Node
  deriving DecidableEq, Repr

/-- Per-instance state: the instance attribute shadowing row_entries once
`self.row_entries = []` has run (none before that), the output fragment
buffer and the indentation-level stack of the base Translator (both
modelled from the spec). -/
structure InstState where
  row_entries_local : Option (List Node)
  out : List String
  levels : List String
  deriving DecidableEq, Repr

/-- The translator as seen by one instance: the shared class attributes
plus its own instance state. -/
structure World where
  cls : ClassState
  inst : InstState
  deriving DecidableEq, Repr

/-- The pristine class attributes, as the class body declares them. -/
def ClassState.init : ClassState := ⟨[], [], [], []⟩

/-- A freshly constructed instance: no instance attribute shadows
row_entries yet, the output buffer is empty, no level is open. -/
def InstState.fresh : InstState := ⟨none, [], []⟩

/-- A fresh translator instance over given class attributes. -/
def World.fresh (k : ClassState) : World := ⟨k, InstState.fresh⟩

/-- Modelled from the spec: Translator.add of the framework base class
appends one text fragment to the output buffer. -/
def add (text : String) (w : World) : World :=
  { w with inst := { w.inst with out := w.inst.out ++ [text] } }

/-- Modelled from the spec: Translator.start_level of the framework base
class opens one indentation level with the given prefix. -/
def start_level (pre : String) (w : World) : World :=
  { w with inst := { w.inst with levels := pre :: w.inst.levels } }

/-- Modelled from the spec: Translator.finish_level closes the innermost
open indentation level. -/
def finish_level (w : World) : World :=
  { w with inst := { w.inst with levels := w.inst.levels.tail } }

/-- Python attribute lookup for self.row_entries: the instance attribute if
one has been assigned, the class attribute otherwise. -/
def getRowEntries (w : World) : List Node :=
  w.inst.row_entries_local.getD w.cls.row_entries

/-- self.row_entries.append(node): the append mutates whichever list the
lookup found — the instance list if the shadow exists, else the class list. -/
def appendRowEntry (n : Node) (w : World) : World :=
  match w.inst.row_entries_local with
  | some l => { w with inst := { w.inst with row_entries_local := some (l ++ [n]) } }
  | none => { w with cls := { w.cls with row_entries := w.cls.row_entries ++ [n] } }

/-- self.row_entries = v: assignment always creates or overwrites the
instance attribute, leaving the class attribute as it was. -/
def setRowEntries (v : List Node) (w : World) : World :=
  { w with inst := { w.inst with row_entries_local := some v } }

/-- Embedding of the `rows` property (lines 94-106): if no table is open
return the empty list, otherwise collect, among the children of the top
table and the children of those children, the nodes that are docutils rows,
in order.  The scan descends exactly two levels, no further. -/
def rowsProperty (w : World) : List Node :=
  match w.cls.tables.getLast? with
  | none => []
  | some t =>
    (t.childrenL.map (fun n =>
      if n.isRow then [n]
      else n.childrenL.filter (fun m => m.isRow))).flatten

/-- Result of a visit hook: continue into the children, or raise
nodes.SkipNode, which tells the traversal driver to skip the node, its
subtree and its depart hook.  Either way the hook may already have updated
the state. -/
inductive VisitResult where
  | cont (w : World)
  | skipN (w : World)
  deriving DecidableEq, Repr

/-! ### Table visit/depart hooks (markdown_writer.py lines 459-538) -/

/-- Embedding of visit_table: push the table node on the table stack. -/
def visit_table (n : Node) (w : World) : VisitResult :=
  .cont { w with cls := { w.cls with tables := w.cls.tables ++ [n] } }

/-- Embedding of depart_table: pop the table stack.  (Python list.pop
removes the last element; in every run below the stack is non-empty here,
matching the source, where an empty pop would raise.) -/
def depart_table (w : World) : World :=
  { w with cls := { w.cls with tables := w.cls.tables.dropLast } }

/-- Embedding of visit_thead: raise SkipNode when no table is open,
otherwise push the header node on the theads stack. -/
def visit_thead (n : Node) (w : World) : VisitResult :=
  if w.cls.tables.length = 0 then .skipN w
  else .cont { w with cls := { w.cls with theads := w.cls.theads ++ [n] } }

/-- Embedding of visit_tbody: raise SkipNode when no table is open,
otherwise push the body node on the tbodys stack. -/
def visit_tbody (n : Node) (w : World) : VisitResult :=
  if w.cls.tables.length = 0 then .skipN w
  else .cont { w with cls := { w.cls with tbodys := w.cls.tbodys ++ [n] } }

/-- Embedding of depart_tbody: pop the tbodys stack. -/
def depart_tbody (w : World) : World :=
  { w with cls := { w.cls with tbodys := w.cls.tbodys.dropLast } }

/-- Embedding of visit_row: raise SkipNode when neither a header section
nor a body section is open.  Otherwise the source runs
self.rows.append(node); self.rows is the property, so the append lands in
the temporary list the property returned and changes no state. -/
def visit_row (_n : Node) (w : World) : VisitResult :=
  if w.cls.theads.length = 0 && w.cls.tbodys.length = 0 then .skipN w
  else .cont w

/-- Embedding of depart_row: emit the row terminator; if no header section
is open, assign a fresh empty list to self.row_entries (an instance
attribute assignment).  The closing self.rows.pop() pops the temporary
list the property returned, inside try/except IndexError, and never
changes state. -/
def depart_row (_n : Node) (w : World) : World :=
  let w := add "|\n" w
  if w.cls.theads.length = 0 then setRowEntries [] w else w

/-- The inner loop of depart_thead and depart_entry: the running maximum,
over the scanned rows, of the rendered text length of the child at column
index i, for rows having more than i children. -/
def maxColWidth (rows : List Node) (i : Nat) : Nat :=
  rows.foldl
    (fun length r =>
      let cs := r.childrenL
      if h : i < cs.length then
        let w := (Node.astext cs[i]).length
        if w > length then w else length
      else length)
    0

/-- Embedding of visit_entry: raise SkipNode when the rows property yields
no rows (note: the guard reads the property, not the section stacks);
otherwise append the entry to self.row_entries and emit the cell opener. -/
def visit_entry (n : Node) (w : World) : VisitResult :=
  if (rowsProperty w).length = 0 then .skipN w
  else .cont (add "| " (appendRowEntry n w))

/-- Embedding of depart_entry: let i be the index of the last buffered
entry, recompute the maximum width of column i over the property rows, and
emit that many minus the rendered entry length spaces of padding (Python
range of a negative number is empty, hence the truncated subtraction)
followed by one space.  In all reachable calls the buffer is non-empty,
since visit_entry appended to it; the source would index the last child on
an empty buffer. -/
def depart_entry (n : Node) (w : World) : World :=
  let i := (getRowEntries w).length - 1
  let length := maxColWidth (rowsProperty w) i
  let padding := String.mk (List.replicate (length - (Node.astext n).length) ' ')
  add (padding ++ " ") w

/-- One separator cell of depart_thead: a bar, a space, `length` dashes and
a space ('-' joined over range(length) by the pydash map). -/
def separatorCell (length : Nat) : String :=
  "| " ++ String.mk (List.replicate length '-') ++ " "

/-- The separator cells depart_thead emits: one cell per buffered row
entry, the cell at position i sized to the maximum width of column i over
the property rows. -/
def separatorCells (w : World) : List String :=
  (List.range (getRowEntries w).length).map
    (fun i => separatorCell (maxColWidth (rowsProperty w) i))

/-- Embedding of depart_thead: emit one dash cell per buffered row entry,
then the row terminator; assign a fresh empty list to self.row_entries
(instance attribute assignment) and pop the theads stack. -/
def depart_thead (w : World) : World :=
  let w := (separatorCells w).foldl (fun w c => add c w) w
  let w := add "|\n" w
  let w := setRowEntries [] w
  { w with cls := { w.cls with theads := w.cls.theads.dropLast } }

/-! ### A traversal driver for table subtrees

Modelled from the spec: the external framework walks the tree depth first,
calling the visit hook, then the children (unless the hook raised SkipNode),
then the depart hook.  The dispatch below covers the node kinds occurring in
the table runs of this development: the table machinery above, text leaves
(rendered by the framework base class by appending their string), and the
pass-through default (visit_tgroup, visit_colspec and unknown kinds emit
nothing). -/

/-- Visit dispatch for the walker. -/
def tvisit (n : Node) (w : World) : VisitResult :=
  match n with
  | .text s => .cont (add s w)
  | .elem .table _ => visit_table n w
  | .elem .thead _ => visit_thead n w
  | .elem .tbody _ => visit_tbody n w
  | .elem .row _ => visit_row n w
  | .elem .entry _ => visit_entry n w
  | .elem _ _ => .cont w

/-- Depart dispatch for the walker. -/
def tdepart (n : Node) (w : World) : World :=
  match n with
  | .text _ => w
  | .elem .table _ => depart_table w
  | .elem .thead _ => depart_thead w
  | .elem .tbody _ => depart_tbody w
  | .elem .row _ => depart_row n w
  | .elem .entry _ => depart_entry n w
  | .elem _ _ => w

mutual

/-- Depth-first walk of one node: visit, children, depart, honoring
SkipNode. -/
def walk (n : Node) (w : World) : World :=
  match n with
  | .text s =>
    match tvisit (.text s) w with
    | .skipN w => w
    | .cont w => tdepart (.text s) w
  | .elem t cs =>
    match tvisit (.elem t cs) w with
    | .skipN w => w
    | .cont w => tdepart (.elem t cs) (walkList cs w)

/-- Walk a list of siblings in order. -/
def walkList (ns : List Node) (w : World) : World :=
  match ns with
  | [] => w
  | n :: ns => walkList ns (walk n w)

end

/-! ### visit_title (lines 108-110) and the admonition hooks (lines 284-301) -/

/-- Embedding of visit_title: reformat the title in place, then emit the
heading prefix of section_level hash marks and a space.  The section level
is tracked by the framework base class and is passed in here. -/
def visit_title (section_level : Nat) (n : Node) (w : World) :
    Except String (Node × World) :=
  match reformat_title n with
  | .error e => .error e
  | .ok n => .ok (n, add (String.mk (List.replicate section_level '#') ++ " ") w)

/-- Embedding of visit_admonition: if the node has children, pop the first
child off the node as the title (an in-place mutation of the node), open a
block-quote indentation level, and emit a heading line from the title text;
with no children do nothing.  Returns the mutated node together with the
new state, since depart_admonition later sees the mutated node. -/
def visit_admonition (n : Node) (w : World) : Node × World :=
  match n with
  | .elem t (c :: cs) =>
    (.elem t cs, add ("## " ++ Node.astext c ++ "  \n") (start_level "> " w))
  | n => (n, w)

/-- Embedding of depart_admonition: close one indentation level if the node
(as it stands at depart time) has children, else do nothing. -/
def depart_admonition (n : Node) (w : World) : World :=
  match n with
  | .elem _ (_ :: _) => finish_level w
  | _ => w

/-! ### Reference resolution (markdown_writer.py lines 197-228) -/

/-- A docutils reference node as _refuri2http reads it: the optional target
URL, the internal flag (node.get of a missing key yields the falsy None),
the optional reference title and fragment id, and the flattened text used
as the link label. -/
structure RefNode where
  refuri : Option String
  internal : Bool
  reftitle : Option String
  refid : Option String
  label : String
  deriving DecidableEq, Repr

/-- Modelled from the spec: the per-document context the resolver needs,
the identifier of the current document and the output URI its builder
returns for it (builder.get_target_uri of the current docname). -/
structure Builder where
  current_docname : String
  target_uri : String
  deriving DecidableEq, Repr

/-- Embedding of posixpath.normpath: collapse empty and single-dot
components, resolve double-dot components against preceding ones, keep one
leading slash (exactly two stay two), and render the empty result as a
single dot. -/
def normpath (path : String) : String :=
  if path = "" then "."
  else
    let leadSlashes : Nat :=
      if pyStartsWith path "/" then
        if pyStartsWith path "//" && !pyStartsWith path "///" then 2 else 1
      else 0
    let comps := pySplit path "/"
    let newComps := comps.foldl
      (fun acc comp =>
        if comp = "" || comp = "." then acc
        else if comp ≠ ".." || (leadSlashes = 0 && acc.isEmpty)
            || acc.getLast? = some ".." then acc ++ [comp]
        else if !acc.isEmpty then acc.dropLast
        else acc)
      []
    let joined := String.intercalate "/" newComps
    let full := String.mk (List.replicate leadSlashes '/') ++ joined
    if full = "" then "." else full

/-- Embedding of _refuri2http: an external reference returns its refuri
unchanged (possibly None); an internal one without refuri returns the
reftitle as a fragment (a missing reftitle makes the string concatenation
with None raise TypeError); an internal one with an empty refuri resolves
to the output URI of the current document, a non-empty one is normalized
against the folder of the current document; a refid, when present, is
appended after a hash. -/
def refuri2http (b : Builder) (n : RefNode) : Except String (Option String) :=
  if !n.internal then .ok n.refuri
  else
    match n.refuri with
    | none =>
      match n.reftitle with
      | some t => .ok (some ("#" ++ t))
      | none => .error "TypeError: can only concatenate str to str"
    | some url =>
      let url :=
        if url = "" then b.target_uri
        else
          let thisDir := dirname b.current_docname
          if thisDir ≠ "" then normpath (thisDir ++ "/" ++ url) else url
      let url :=
        match n.refid with
        | some rid => url ++ "#" ++ rid
        | none => url
      .ok (some url)

/-- Embedding of visit_reference: resolve the target, split it on hash
marks, delete every dot from the second piece when there are at least two
pieces, rejoin, and emit the inline link (the source then raises SkipNode,
so the subtree is not traversed further).  A None target makes the
attribute access None.split raise. -/
def visit_reference (b : Builder) (n : RefNode) : Except String String :=
  match refuri2http b n with
  | .error e => .error e
  | .ok none => .error "AttributeError: NoneType has no attribute split"
  | .ok (some document) =>
    let parts := pySplit document "#"
    let document :=
      match parts with
      | p0 :: p1 :: rest => String.intercalate "#" (p0 :: pyRemoveAll p1 "." :: rest)
      | _ => document
    .ok ("[" ++ n.label ++ "](" ++ document ++ ")")

/-- Spec-side definition for the amended claim about external references:
the target URL with every dot deleted from the portion between the first
hash mark and the second (if any); a URL without a hash mark is returned
verbatim. -/
def stripDotsFirstFragment (u : String) : String :=
  match pySplit u "#" with
  | p0 :: p1 :: rest => String.intercalate "#" (p0 :: pyRemoveAll p1 "." :: rest)
  | _ => u

/-! ### Concrete documents used by the table theorems -/

mutual

/-- Spec-side: every row node anywhere in a subtree, depth first.  The
claim about separator rows speaks of all rows of the table; this collector
realizes that reading, in contrast to the two-level scan of the rows
property. -/
def deepRows : Node → List Node
  | .text _ => []
  | .elem t cs =>
    (if (Node.elem t cs).isRow then [Node.elem t cs] else []) ++ deepRowsList cs

/-- Row nodes of a list of subtrees, in order. -/
def deepRowsList : List Node → List Node
  | [] => []
  | c :: cs => deepRows c ++ deepRowsList cs

end

/-- Spec-side: the separator row the claim asks for, given the table and
its header row: one dash cell per header column, sized to the maximum
rendered width of that column over all rows of the table. -/
def claimedSeparatorCells (t headerRow : Node) : List String :=
  (List.range headerRow.childrenL.length).map
    (fun i => separatorCell (maxColWidth (deepRows t) i))

/-- Header row of the standard-shaped table below. -/
def hrow8 : Node := .elem .row [.elem .entry [.text "ab"]]

/-- Body row of the standard-shaped table below. -/
def brow8 : Node := .elem .row [.elem .entry [.text "abcd"]]

/-- A well-formed table in exactly the shape the comment block above the
table handlers documents (lines 442-457): table, tgroup, colspec, thead
with one row, tbody with one row. -/
def table8 : Node :=
  .elem .table [.elem .tgroup [.elem .colspec [], .elem .thead [hrow8], .elem .tbody [brow8]]]

/-- First document for the instance-isolation run: a table whose header
section is a direct child (so the two-level row scan finds its row), with
one entry of width two. -/
def doc1Table : Node :=
  .elem .table [.elem .thead [.elem .row [.elem .entry [.text "ab"]]]]

/-- Second document for the instance-isolation run: same shape, one entry
of width three. -/
def doc2Table : Node :=
  .elem .table [.elem .thead [.elem .row [.elem .entry [.text "xyz"]]]]

/-! ### Helper lemmas -/

theorem push_out (p : PreMan) :
    p.push.out = if p.in_quotes = 0 then p.out ++ ["`"] else p.out := by
  by_cases h : p.in_quotes = 0 <;> simp [PreMan.push, h]

theorem pop_out (p : PreMan) :
    p.pop.out = if p.in_quotes = 1 then p.out ++ ["`"] else p.out := by
  by_cases h : p.in_quotes = 1
  · have h0 : p.in_quotes - 1 = 0 := by omega
    simp [PreMan.pop, h0, h]
  · have h0 : ¬(p.in_quotes - 1 = 0) := by omega
    simp [PreMan.pop, h0, h]

/-! ### Claim theorems -/

/-- C1: the claim says every MarkdownTranslator instance carries fresh
tracking structures, so a second document rendered by a second instance
produces exactly the output it would produce alone.  The code declares the
tracking lists as class attributes: rendering doc1Table leaves its header
entry in the class-level row-entry list (depart_thead only shadows it with
an instance attribute), so a fresh second instance starts with a non-empty
buffer and emits an extra separator cell for doc2Table — its output differs
from the output of doc2Table rendered alone from pristine class state. -/
theorem c1_class_state_leaks_across_instances :
    (walk doc2Table (World.fresh (walk doc1Table (World.fresh ClassState.init)).cls)).inst.out
      = ["| ", "xyz", " ", "|\n", "| --- ", "|  ", "|\n"]
    ∧ (walk doc2Table (World.fresh ClassState.init)).inst.out
      = ["| ", "xyz", " ", "|\n", "| --- ", "|\n"]
    ∧ (walk doc1Table (World.fresh ClassState.init)).cls.row_entries
      = [Node.elem .entry [.text "ab"]]
    ∧ (walk doc2Table (World.fresh (walk doc1Table (World.fresh ClassState.init)).cls)).inst.out
      ≠ (walk doc2Table (World.fresh ClassState.init)).inst.out := by decide

/-- C2: the claim (and the docstring of reformat_title) says the title text
"mypackage.mymodule module" becomes "Module mypackage.mymodule".  The code
deletes every occurrence of the substring "module", including the one
inside "mymodule", and produces "Module mypackage.my". -/
theorem c2_reformat_title_eats_inner_module :
    reformat_title (.elem .title [.text "mypackage.mymodule module"])
      = .ok (.elem .title [.text "Module mypackage.my"])
    ∧ Node.elem .title [.text "Module mypackage.my"]
      ≠ .elem .title [.text "Module mypackage.mymodule"] := by decide

/-- C3: the claim says visit_image does not raise and emits "./img.png" for
URI "docfolder/img.png" under document folder "docfolder".  The module
never imports os, so the first statement of visit_image raises NameError on
every call; the path logic in its body, embedded separately, would indeed
produce "./img.png". -/
theorem c3_visit_image_raises_name_error :
    visit_image "docfolder/img.png" "docfolder/index"
      = .error "NameError: name os is not defined"
    ∧ visit_image_uri "docfolder/img.png" "docfolder/index" = "./img.png"
    ∧ visit_image_markup (visit_image_uri "docfolder/img.png" "docfolder/index")
      = "\n\n![image](./img.png)\n\n" := by decide

/-- C4: the claim says every admonition that opens an indentation level on
enter closes it on exit, and a childless admonition opens and closes none.
The childless half holds, but an admonition whose only child is its title
breaks the other half: visit_admonition pops that child and opens a level,
then depart_admonition sees an empty child list and never closes it. -/
theorem c4_one_child_admonition_leaves_level_open :
    (visit_admonition (.elem .admonition [.elem .title [.text "Note"]])
        (World.fresh ClassState.init)).2.inst.levels.length = 1
    ∧ depart_admonition
        (visit_admonition (.elem .admonition [.elem .title [.text "Note"]])
          (World.fresh ClassState.init)).1
        (visit_admonition (.elem .admonition [.elem .title [.text "Note"]])
          (World.fresh ClassState.init)).2
      = (visit_admonition (.elem .admonition [.elem .title [.text "Note"]])
          (World.fresh ClassState.init)).2
    ∧ visit_admonition (.elem .admonition []) (World.fresh ClassState.init)
      = (.elem .admonition [], World.fresh ClassState.init)
    ∧ depart_admonition (.elem .admonition []) (World.fresh ClassState.init)
      = World.fresh ClassState.init := by decide

/-- C5 counterexample: the claim says the row-entry buffer is cleared if
and only if the row closes inside an open header section.  At a concrete
state with an open header section the buffer survives the row close, and at
a concrete state with only an open body section it is cleared — both
directions of the claimed iff fail. -/
theorem c5_row_close_clear_counterexample :
    getRowEntries
        (depart_row (.elem .row [])
          (World.fresh ⟨[Node.elem .entry [.text "ab"]], [], [], [.elem .thead []]⟩))
      = [Node.elem .entry [.text "ab"]]
    ∧ getRowEntries
        (depart_row (.elem .row [])
          (World.fresh ⟨[Node.elem .entry [.text "ab"]], [], [.elem .tbody []], []⟩))
      = [] := by decide

/-- C5 amended: on every row close the renderer emits the row terminator,
and clears the row-entry buffer if and only if no header section is open
(after body rows; after header rows the buffer is preserved for the
separator computation of the header close).  The section stacks and table
stack are untouched. -/
theorem c5_row_close_amended (n : Node) (w : World) :
    (depart_row n w).inst.out = w.inst.out ++ ["|\n"]
    ∧ getRowEntries (depart_row n w)
      = (if w.cls.theads = [] then [] else getRowEntries w)
    ∧ (depart_row n w).cls.tables = w.cls.tables
    ∧ (depart_row n w).cls.theads = w.cls.theads
    ∧ (depart_row n w).cls.tbodys = w.cls.tbodys := by
  by_cases h : w.cls.theads = [] <;>
    simp [depart_row, add, setRowEntries, getRowEntries, h, List.length_eq_zero]

/-- C6 counterexample: the claim says an external reference reproduces its
URL verbatim, including any fragment.  A concrete external reference whose
fragment contains a dot is emitted with the dot stripped. -/
theorem c6_external_reference_counterexample :
    visit_reference ⟨"doc", "doc.md"⟩
        ⟨some "https://example.com/page#sec.1", false, none, none, "L"⟩
      = .ok "[L](https://example.com/page#sec1)"
    ∧ ("[L](https://example.com/page#sec1)" : String)
      ≠ "[L](https://example.com/page#sec.1)" := by decide

/-- C6 amended: an external reference emits a link whose URL is the target
URL with every dot deleted from the portion between the first and second
hash mark; a URL containing no hash mark — such as https://example.com — is
reproduced verbatim. -/
theorem c6_external_reference_amended (b : Builder) (n : RefNode) (u : String)
    (hin : n.internal = false) (hu : n.refuri = some u) :
    visit_reference b n
      = .ok ("[" ++ n.label ++ "](" ++ stripDotsFirstFragment u ++ ")")
    ∧ ((pySplit u "#").length ≤ 1 → stripDotsFirstFragment u = u) := by
  constructor
  · have hr : refuri2http b n = .ok (some u) := by
      simp [refuri2http, hin, hu]
    simp only [visit_reference, hr]
    rfl
  · intro hlen
    simp only [stripDotsFirstFragment]
    cases hsp : pySplit u "#" with
    | nil => rfl
    | cons p0 ps =>
      cases ps with
      | nil => rfl
      | cons p1 rest => simp [hsp] at hlen

/-- C6 witness: the example of the claim, an external reference with URL
https://example.com and label Example, emits exactly
[Example](https://example.com). -/
theorem c6_external_reference_witness :
    visit_reference ⟨"doc", "doc.md"⟩
        ⟨some "https://example.com", false, none, none, "Example"⟩
      = .ok "[Example](https://example.com)" := by
  have h := (c6_external_reference_amended ⟨"doc", "doc.md"⟩
    ⟨some "https://example.com", false, none, none, "Example"⟩
    "https://example.com" rfl rfl).1
  exact h.trans (by decide)

/-- C7: for any sequence of PreMan push/pop calls forming matched
bracketed pairs, run from counter 0: the number of opening backticks equals
the number of closing backticks, the final counter is 0 and the output grew
by exactly those emissions; moreover push emits its backtick exactly on the
0 to 1 transition, pop exactly on the 1 to 0 transition, and any push or
pop elsewhere (in particular wholly inside nesting depth at least one)
emits nothing. -/
theorem c7_quote_nesting_balanced (ops : List QOp) (hops : Dyck ops) :
    countOpens 0 ops = countCloses 0 ops
    ∧ (∀ out0 : List String,
        (PreMan.run ⟨0, out0⟩ ops).in_quotes = 0
        ∧ (PreMan.run ⟨0, out0⟩ ops).out.length
          = out0.length + countOpens 0 ops + countCloses 0 ops)
    ∧ (∀ p : PreMan,
        (p.push.out = p.out ++ ["`"] ↔ p.in_quotes = 0)
        ∧ (p.push.out = p.out ↔ ¬p.in_quotes = 0)
        ∧ (p.pop.out = p.out ++ ["`"] ↔ p.in_quotes = 1)
        ∧ (p.pop.out = p.out ↔ ¬p.in_quotes = 1)) := by
  have hd := dyck_counts hops 0
  refine ⟨hd.2, ?_, ?_⟩
  · intro out0
    have hr := PreMan.run_spec ops ⟨0, out0⟩
    exact ⟨by simpa [hd.1] using hr.1, by simpa using hr.2⟩
  · intro p
    have h1 := push_out p
    have h2 := pop_out p
    refine ⟨?_, ?_, ?_, ?_⟩ <;>
      [skip; skip; skip; skip] <;>
      first
      | (rw [h1]; by_cases h : p.in_quotes = 0 <;> simp [h])
      | (rw [h2]; by_cases h : p.in_quotes = 1 <;> simp [h])

/-- C7 witness: the six-call sequence push push pop pop push pop forms
matched bracketed pairs and its opening and closing emissions agree. -/
theorem c7_quote_nesting_witness :
    Dyck [QOp.push, QOp.push, QOp.pop, QOp.pop, QOp.push, QOp.pop]
    ∧ countOpens 0 [QOp.push, QOp.push, QOp.pop, QOp.pop, QOp.push, QOp.pop]
      = countCloses 0 [QOp.push, QOp.push, QOp.pop, QOp.pop, QOp.push, QOp.pop] := by
  have hinner : Dyck [QOp.push, QOp.pop] := by
    simpa using Dyck.wrap Dyck.nil
  have houter : Dyck [QOp.push, QOp.push, QOp.pop, QOp.pop] := by
    simpa using Dyck.wrap hinner
  have hall : Dyck [QOp.push, QOp.push, QOp.pop, QOp.pop, QOp.push, QOp.pop] := by
    simpa using Dyck.append houter hinner
  exact ⟨hall, (c7_quote_nesting_balanced _ hall).1⟩

/-- C8: the claim says that for a well-formed table the separator row under
the header has one dash cell per header column, sized to the widest cell of
the column over all rows.  On the documented docutils shape (table, tgroup,
thead, tbody — the shape the comment block above the handlers spells out)
the two-level scan of the rows property finds no rows, every entry visit is
skipped, and the header close emits a separator with no cells at all; the
cell the claim asks for (one cell of four dashes, the width of "abcd")
never appears. -/
theorem c8_separator_ignores_tgroup_rows :
    (walk table8 (World.fresh ClassState.init)).inst.out = ["|\n", "|\n", "|\n"]
    ∧ claimedSeparatorCells table8 hrow8 = ["| ---- "]
    ∧ ¬"| ---- " ∈ (walk table8 (World.fresh ClassState.init)).inst.out := by decide

/-- C9 counterexample: the claim says a row or entry visited while neither
a header nor a body section is open is a complete no-op.  At a concrete
state with no open section but an open table that has a row child, the
entry visit is not skipped: it appends the entry to the row-entry buffer
and emits a cell opener. -/
theorem c9_entry_without_section_renders :
    visit_entry (.elem .entry [.text "zz"])
        (World.fresh ⟨[], [.elem .table [.elem .row []]], [], []⟩)
      = .cont ⟨⟨[.elem .entry [.text "zz"]], [.elem .table [.elem .row []]], [], []⟩,
          ⟨none, ["| "], []⟩⟩
    ∧ (World.fresh ⟨[], [.elem .table [.elem .row []]], [], []⟩).cls.theads = []
    ∧ (World.fresh ⟨[], [.elem .table [.elem .row []]], [], []⟩).cls.tbodys = [] := by
  decide

/-- C9 amended: a row visited while neither a header nor a body section is
open is skipped with no state change; an entry visit is skipped precisely
when the two-level row scan of the top open table finds no rows — which
holds in particular whenever no table is open, but not for an open table
with a row among its children or grandchildren. -/
theorem c9_skip_guards_amended :
    (∀ (n : Node) (w : World),
      w.cls.theads = [] → w.cls.tbodys = [] → visit_row n w = .skipN w)
    ∧ (∀ (n : Node) (w : World), rowsProperty w = [] → visit_entry n w = .skipN w)
    ∧ (∀ w : World, w.cls.tables = [] → rowsProperty w = []) := by
  refine ⟨?_, ?_, ?_⟩
  · intro n w h1 h2
    simp [visit_row, h1, h2]
  · intro n w h
    simp [visit_entry, h]
  · intro w h
    simp [rowsProperty, h]

/-- C9 witness: from pristine state (no open table, no open sections) a row
visit and an entry visit are both skipped with no state change. -/
theorem c9_skip_guards_witness :
    visit_row (.elem .row []) (World.fresh ClassState.init)
      = .skipN (World.fresh ClassState.init)
    ∧ visit_entry (.elem .entry []) (World.fresh ClassState.init)
      = .skipN (World.fresh ClassState.init)
    ∧ rowsProperty (World.fresh ClassState.init) = [] := by
  have h := c9_skip_guards_amended
  exact ⟨h.1 _ _ rfl rfl, h.2.1 _ _ (h.2.2 _ rfl), h.2.2 _ rfl⟩

/-- C10: escape never modifies the quote-nesting counter, and only appends
to the output: one fragment, the text wrapped in backticks when the counter
is non-zero (hence in particular whenever it is positive), the text
verbatim when the counter is zero. -/
theorem c10_escape_preserves_counter (p : PreMan) (t : String) :
    (PreMan.escape p t).in_quotes = p.in_quotes
    ∧ (PreMan.escape p t).out
      = p.out ++ [if p.in_quotes = 0 then t else "`" ++ t ++ "`"] := by
  by_cases h : p.in_quotes = 0 <;> simp [PreMan.escape, h]

end SMB
